import Mathlib

/-
Verification of the noise-maker audio engine.

The development shallowly embeds the core of `src/hooks/useNoiseAudio.ts`:

* `createNoiseBuffer` (lines 5-38): the per-color noise generators (white,
  pink, brown), modelled over exact rationals.  The pseudo-random stream
  `Math.random() * 2 - 1` is abstracted as a draw function `w : ℕ → ℚ`
  together with the hypothesis that every draw lies in `[-1, 1]`.
* the `useNoiseAudio` hook body (lines 40-148): the two parameterised React
  effects are modelled as a step function `applyState` on an explicit
  `HookState`.  Following React semantics an effect body runs exactly when
  its dependency array differs from the previous render's (and always on the
  first render, where the recorded dependencies are `none`).  Each run emits
  a list of `GraphAction`s, the calls the code makes against the Web Audio
  graph.  `HookState.gainValue` models the instantaneous `gain.gain.value`
  the code reads at effect time.  `ctx.resume()` (an environment concern of
  browser autoplay policy) and real time are not modelled; they are
  irrelevant to the properties proved here.
-/

namespace NoiseMaker

/-! ## Data model (src/types.ts) -/

/-- The three noise colors of `NoiseColor` in `src/types.ts`. -/
inductive NoiseColor where
  | white
  | pink
  | brown
deriving DecidableEq

/-- The externally supplied control state, `AudioState` in `src/types.ts`.
Numeric fields are modelled as exact rationals. -/
structure AudioState where
  isPlaying : Bool
  volume : ℚ
  noiseColor : NoiseColor
  filterFrequency : ℚ
  filterQ : ℚ
deriving DecidableEq

/-! ## Noise generation (`createNoiseBuffer`, src/hooks/useNoiseAudio.ts 5-38) -/

/-- The seven pink-noise state variables `b0 .. b6` of the pink branch. -/
structure PinkState where
  b0 : ℚ
  b1 : ℚ
  b2 : ℚ
  b3 : ℚ
  b4 : ℚ
  b5 : ℚ
  b6 : ℚ
deriving DecidableEq

/-- All pink state variables start at 0 (`let b0 = 0, ..., b6 = 0`). -/
def pinkInit : PinkState := ⟨0, 0, 0, 0, 0, 0, 0⟩

/-- One iteration of the pink-noise state update (lines 18-23 and 26).
`b0 .. b5` are updated before the output is computed; `b6` is assigned
after the output, so the `b6` stored here is read only by the NEXT sample. -/
def pinkStep (p : PinkState) (white : ℚ) : PinkState where
  b0 := 0.99886 * p.b0 + white * 0.0555179
  b1 := 0.99332 * p.b1 + white * 0.0750759
  b2 := 0.96900 * p.b2 + white * 0.1538520
  b3 := 0.86650 * p.b3 + white * 0.3104856
  b4 := 0.55000 * p.b4 + white * 0.5329522
  b5 := -0.7616 * p.b5 - white * 0.0168980
  b6 := white * 0.115926

/-- The pink-noise output sample for one iteration (lines 24-25): the sum of
the freshly updated `b0 .. b5`, the PREVIOUS iteration's `b6`, and the direct
white component, scaled by the 0.11 compensation gain. -/
def pinkOut (p : PinkState) (white : ℚ) : ℚ :=
  let q := pinkStep p white
  0.11 * (q.b0 + q.b1 + q.b2 + q.b3 + q.b4 + q.b5 + p.b6 + white * 0.5362)

/-- The pink branch loop (lines 16-27): from state `p` at draw index `i`,
produce `n` further samples. -/
def pinkGen (w : ℕ → ℚ) : PinkState → ℕ → ℕ → List ℚ
  | _, _, 0 => []
  | p, i, n + 1 => pinkOut p (w i) :: pinkGen w (pinkStep p (w i)) (i + 1) n

/-- The pink state after consuming draws `w 0, ..., w (n-1)`. -/
def pinkState (w : ℕ → ℚ) : ℕ → PinkState
  | 0 => pinkInit
  | n + 1 => pinkStep (pinkState w n) (w n)

/-- Iterating `pinkStep` from state `p`, consuming draws starting at index
`i`; used to relate the loop `pinkGen` to `pinkState`. -/
def pinkIter (w : ℕ → ℚ) : PinkState → ℕ → ℕ → PinkState
  | p, _, 0 => p
  | p, i, j + 1 => pinkIter w (pinkStep p (w i)) (i + 1) j

/-- The brown-noise leaky-integrator update (line 32):
`(lastOut + 0.02 * white) / 1.02`, the value stored back into `lastOut`
before the 3.5 compensation gain is applied to the output slot. -/
def brownStep (lastOut white : ℚ) : ℚ :=
  (lastOut + 0.02 * white) / 1.02

/-- The brown branch loop (lines 30-35): from integrator state `lastOut` at
draw index `i`, produce `n` further stored samples (each `3.5 ×` the
pre-compensation integrator value). -/
def brownGen (w : ℕ → ℚ) : ℚ → ℕ → ℕ → List ℚ
  | _, _, 0 => []
  | lastOut, i, n + 1 =>
    brownStep lastOut (w i) * 3.5 :: brownGen w (brownStep lastOut (w i)) (i + 1) n

/-- The brown integrator state `lastOut` after consuming draws
`w 0, ..., w (n-1)`; starts at 0 (line 29). -/
def brownLast (w : ℕ → ℚ) : ℕ → ℚ
  | 0 => 0
  | n + 1 => brownStep (brownLast w n) (w n)

/-- `createNoiseBuffer` (lines 5-38): a buffer of `sampleRate * 5` samples
(line 6, "5 seconds loop"), one branch per color.  The white branch stores
the draw itself (`Math.random() * 2 - 1`, modelled as `w i`). -/
def createNoiseBuffer (w : ℕ → ℚ) (type : NoiseColor) (sampleRate : ℕ) : List ℚ :=
  let bufferSize := sampleRate * 5
  match type with
  | NoiseColor.white => (List.range bufferSize).map w
  | NoiseColor.pink => pinkGen w pinkInit 0 bufferSize
  | NoiseColor.brown => brownGen w 0 0 bufferSize

/-! ## The `useNoiseAudio` hook (src/hooks/useNoiseAudio.ts 40-148)

The hook is modelled as a step function on `HookState`.  Each submitted
`AudioState` corresponds to one render; React runs an effect body exactly
when its dependency array differs from the one recorded at the previous
render (always on the first render).  Effect bodies emit `GraphAction`s,
the Web Audio calls the code performs. -/

/-- The calls the hook makes against the Web Audio graph. -/
inductive GraphAction where
  /-- `sourceNodeRef.current.stop(); .disconnect()` (lines 97-98). -/
  | detachSource
  /-- `createBufferSource` + `connect(filter)` + `start()` with the buffer
  of the given color (lines 110-115). -/
  | attachSource (color : NoiseColor)
  /-- `gain.gain.cancelScheduledValues(now)` (lines 118, 124). -/
  | cancelGainRamps
  /-- `gain.gain.setValueAtTime(v, now)` (lines 119, 125). -/
  | setGainValue (v : ℚ)
  /-- `gain.gain.linearRampToValueAtTime(v, now + dur)` (lines 120, 126). -/
  | rampGainTo (v : ℚ) (dur : ℚ)
  /-- `gain.gain.setTargetAtTime(v, now, 0.1)` (line 139). -/
  | setGainTarget (v : ℚ)
  /-- `filter.frequency.setTargetAtTime(v, now, 0.1)` (line 142). -/
  | setFilterFreqTarget (v : ℚ)
  /-- `filter.Q.setTargetAtTime(v, now, 0.1)` (line 143). -/
  | setFilterQTarget (v : ℚ)
deriving DecidableEq

/-- The hook's persistent state across renders.  `supported` records whether
an `AudioContext` constructor existed at initialization (lines 54-55); when
it is `false` all the node refs stay `null` and the buffers are never
generated.  `source` is `sourceNodeRef` (carrying the color of the attached
buffer), `gainValue` models the instantaneous `gain.gain.value` the code
reads at effect time, `analyser` is the nullable `analyserNodeRef` handle
returned to the consumer, and `prevDeps1` / `prevDeps2` are the dependency
arrays of the two effects recorded at the previous render
(lines 128 and 145). -/
structure HookState where
  supported : Bool
  source : Option NoiseColor
  gainValue : ℚ
  analyser : Option Unit
  prevDeps1 : Option (Bool × NoiseColor)
  prevDeps2 : Option (ℚ × ℚ × ℚ × Bool)
deriving DecidableEq

/-- The state after the mount-time init effect (lines 53-85): no source,
gain node at its default value 1, analyser present exactly when the
environment provides an `AudioContext`. -/
def initHook (supported : Bool) : HookState where
  supported := supported
  source := none
  gainValue := 1
  analyser := if supported then some () else none
  prevDeps1 := none
  prevDeps2 := none

/-- The play/stop/color effect body (lines 88-128).  Returns the updated
hook state and the graph actions performed.  When the environment is
unsupported the node refs are `null` and the body returns at line 93.
When supported, the buffers were pre-generated at init (lines 77-80), so
the `if (buffer)` test at line 109 succeeds. -/
def playStopEffect (h : HookState) (s : AudioState) : HookState × List GraphAction :=
  if h.supported = false then (h, [])
  else
    let dActs : List GraphAction :=
      if h.source = none then [] else [GraphAction.detachSource]
    if s.isPlaying then
      ({ h with source := some s.noiseColor, gainValue := 0 },
        dActs ++ [GraphAction.attachSource s.noiseColor,
          GraphAction.cancelGainRamps, GraphAction.setGainValue 0,
          GraphAction.rampGainTo s.volume 0.1])
    else
      ({ h with source := none },
        dActs ++ [GraphAction.cancelGainRamps,
          GraphAction.setGainValue h.gainValue,
          GraphAction.rampGainTo 0 0.1])

/-- The parameter effect body (lines 131-145): re-target gain (only while
playing) and the filter's frequency and Q; no graph topology change. -/
def paramEffect (h : HookState) (s : AudioState) : List GraphAction :=
  if h.supported = false then []
  else
    (if s.isPlaying then [GraphAction.setGainTarget s.volume] else []) ++
      [GraphAction.setFilterFreqTarget s.filterFrequency,
        GraphAction.setFilterQTarget s.filterQ]

/-- One render with state `s`: run each effect iff its dependency array
changed (deps `[state.isPlaying, state.noiseColor]` at line 128 and
`[state.volume, state.filterFrequency, state.filterQ, state.isPlaying]`
at line 145), then record the new dependency arrays. -/
def applyState (h : HookState) (s : AudioState) : HookState × List GraphAction :=
  let deps1 : Bool × NoiseColor := (s.isPlaying, s.noiseColor)
  let r1 : HookState × List GraphAction :=
    if h.prevDeps1 = some deps1 then (h, []) else playStopEffect h s
  let deps2 : ℚ × ℚ × ℚ × Bool := (s.volume, s.filterFrequency, s.filterQ, s.isPlaying)
  let acts2 : List GraphAction :=
    if r1.1.prevDeps2 = some deps2 then [] else paramEffect r1.1 s
  ({ r1.1 with prevDeps1 := some deps1, prevDeps2 := some deps2 }, r1.2 ++ acts2)

/-- Apply a whole sequence of control states, collecting all graph actions. -/
def runStates (h : HookState) : List AudioState → HookState × List GraphAction
  | [] => (h, [])
  | s :: rest =>
    let r := applyState h s
    let r2 := runStates r.1 rest
    (r2.1, r.2 ++ r2.2)

/-- The spectrum accessor: the hook returns `analyserNodeRef.current`
(line 147) and the consumer (`Visualizer`) reads a frame from it, bailing
out when the handle is `null`.  `frame` is the magnitude snapshot the
analyser would currently deliver. -/
def pullSpectrum (h : HookState) (frame : List ℚ) : List ℚ :=
  match h.analyser with
  | some _ => frame
  | none => []

/-- Whether an action tears down the current playback unit. -/
def isDetach : GraphAction → Bool
  | GraphAction.detachSource => true
  | _ => false

/-- Whether an action creates and starts a playback unit. -/
def isAttach : GraphAction → Bool
  | GraphAction.attachSource _ => true
  | _ => false

/-! ## Spec-side definition for the pink refinement claim -/

/-- Modelled from the spec's words for the pink-output claim: "Output is the
sum of all pole states plus a small direct white-noise component, then scaled
by a fixed compensation gain (~0.11)", with "six state variables `b0..b5`"
as the only state.  Same pole updates as the code, but no seventh state
`b6`; compared against the code's `pinkOut`. -/
def pinkOutSixPole (p : PinkState) (white : ℚ) : ℚ :=
  let q := pinkStep p white
  0.11 * (q.b0 + q.b1 + q.b2 + q.b3 + q.b4 + q.b5 + white * 0.5362)

/-! ## Concrete inputs used by counterexamples and witnesses -/

/-- Constant draw stream at `0.999`, inside the draws' range `[-1, 1)`. -/
def wConst : ℕ → ℚ := fun _ => 999 / 1000

/-- Draw stream whose first draw is `1` and all later draws `-1`: a
full-scale jump across the white buffer's loop seam. -/
def wSeam : ℕ → ℚ := fun i => if i = 0 then 1 else -1

/-- Draw stream `1, 0, 0, ...`, isolating the seventh pink state `b6`. -/
def wImpulse : ℕ → ℚ := fun i => if i = 0 then 1 else 0

/-- Hook state while playing pink at gain 0.5 (after a settled start). -/
def hPlayingPink : HookState where
  supported := true
  source := some NoiseColor.pink
  gainValue := 1 / 2
  analyser := some ()
  prevDeps1 := some (true, NoiseColor.pink)
  prevDeps2 := some (1 / 2, 5000, 1, true)

/-- Hook state while playing white at gain 0.5 (after a settled start). -/
def hPlayingWhite : HookState where
  supported := true
  source := some NoiseColor.white
  gainValue := 1 / 2
  analyser := some ()
  prevDeps1 := some (true, NoiseColor.white)
  prevDeps2 := some (1 / 2, 5000, 1, true)

/-- Control state requesting stop, all other fields unchanged. -/
def sStop : AudioState where
  isPlaying := false
  volume := 1 / 2
  noiseColor := NoiseColor.pink
  filterFrequency := 5000
  filterQ := 1

/-- Control state switching color to pink while still playing. -/
def sSwitchPink : AudioState where
  isPlaying := true
  volume := 1 / 2
  noiseColor := NoiseColor.pink
  filterFrequency := 5000
  filterQ := 1

/-- Control state with out-of-domain values: volume 2 (above 1),
filter frequency 30000 (above 20000), filter Q -5 (not positive). -/
def sBad : AudioState where
  isPlaying := true
  volume := 2
  noiseColor := NoiseColor.pink
  filterFrequency := 30000
  filterQ := -5

/-- Control state changing only the volume, play state and color as in
`hPlayingPink`. -/
def sVol : AudioState where
  isPlaying := true
  volume := 3 / 4
  noiseColor := NoiseColor.pink
  filterFrequency := 5000
  filterQ := 1

/-! ### Basic buffer lemmas -/

lemma pinkGen_length (w : ℕ → ℚ) : ∀ (n : ℕ) (p : PinkState) (i : ℕ),
    (pinkGen w p i n).length = n := by
  intro n
  induction n with
  | zero => intro p i; rfl
  | succ n ih => intro p i; simp [pinkGen, ih]

lemma brownGen_length (w : ℕ → ℚ) : ∀ (n : ℕ) (s : ℚ) (i : ℕ),
    (brownGen w s i n).length = n := by
  intro n
  induction n with
  | zero => intro s i; rfl
  | succ n ih => intro s i; simp [brownGen, ih]

lemma createNoiseBuffer_length (w : ℕ → ℚ) (type : NoiseColor) (sampleRate : ℕ) :
    (createNoiseBuffer w type sampleRate).length = 5 * sampleRate := by
  cases type <;>
    simp [createNoiseBuffer, pinkGen_length, brownGen_length, Nat.mul_comm]

/-! ### Amplitude bounds -/

/-- One brown update keeps the pre-compensation integrator in `[-1, 1]`:
`|(x + 0.02 w) / 1.02| ≤ (|x| + 0.02) / 1.02 ≤ 1`. -/
lemma brownStep_bounds {s wv : ℚ} (hs0 : -1 ≤ s) (hs1 : s ≤ 1)
    (hw0 : -1 ≤ wv) (hw1 : wv ≤ 1) :
    -1 ≤ brownStep s wv ∧ brownStep s wv ≤ 1 := by
  unfold brownStep
  constructor
  · rw [le_div_iff₀ (by norm_num : (0 : ℚ) < 1.02)]
    linarith
  · rw [div_le_iff₀ (by norm_num : (0 : ℚ) < 1.02)]
    linarith

lemma brownLast_bounds (w : ℕ → ℚ) (hw : ∀ i, -1 ≤ w i ∧ w i ≤ 1) (n : ℕ) :
    -1 ≤ brownLast w n ∧ brownLast w n ≤ 1 := by
  induction n with
  | zero => norm_num [brownLast]
  | succ n ih =>
    exact brownStep_bounds ih.1 ih.2 (hw n).1 (hw n).2

lemma brownGen_mem_bounds (w : ℕ → ℚ) (hw : ∀ i, -1 ≤ w i ∧ w i ≤ 1) :
    ∀ (n : ℕ) (s : ℚ) (i : ℕ), -1 ≤ s → s ≤ 1 →
      ∀ x ∈ brownGen w s i n, -3.5 ≤ x ∧ x ≤ 3.5 := by
  intro n
  induction n with
  | zero => intro s i _ _ x hx; simp [brownGen] at hx
  | succ n ih =>
    intro s i hs0 hs1 x hx
    obtain ⟨h0, h1⟩ := brownStep_bounds hs0 hs1 (hw i).1 (hw i).2
    rcases List.mem_cons.mp hx with h | h
    · subst h; constructor <;> linarith
    · exact ih (brownStep s (w i)) (i + 1) h0 h1 x h

/-- Conjunction of per-variable bounds preserved by the pink recurrence.
The bound for `b_k` slightly exceeds the fixed-point bound
`coeff_k / (1 - pole_k)` of the corresponding one-pole recurrence. -/
def PinkBounded (p : PinkState) : Prop :=
  (-49 ≤ p.b0 ∧ p.b0 ≤ 49) ∧ (-11.3 ≤ p.b1 ∧ p.b1 ≤ 11.3) ∧
  (-5 ≤ p.b2 ∧ p.b2 ≤ 5) ∧ (-2.33 ≤ p.b3 ∧ p.b3 ≤ 2.33) ∧
  (-1.19 ≤ p.b4 ∧ p.b4 ≤ 1.19) ∧ (-0.071 ≤ p.b5 ∧ p.b5 ≤ 0.071) ∧
  (-0.115926 ≤ p.b6 ∧ p.b6 ≤ 0.115926)

lemma pinkInit_bounded : PinkBounded pinkInit := by
  norm_num [PinkBounded, pinkInit]

lemma pinkStep_bounded {p : PinkState} {wv : ℚ} (hp : PinkBounded p)
    (hw0 : -1 ≤ wv) (hw1 : wv ≤ 1) : PinkBounded (pinkStep p wv) := by
  obtain ⟨⟨a0, a1⟩, ⟨b0, b1⟩, ⟨c0, c1⟩, ⟨d0, d1⟩, ⟨e0, e1⟩, ⟨f0, f1⟩, ⟨g0, g1⟩⟩ := hp
  refine ⟨⟨?_, ?_⟩, ⟨?_, ?_⟩, ⟨?_, ?_⟩, ⟨?_, ?_⟩, ⟨?_, ?_⟩, ⟨?_, ?_⟩, ⟨?_, ?_⟩⟩ <;>
    simp only [pinkStep] <;> linarith

lemma pinkOut_bounds {p : PinkState} {wv : ℚ} (hp : PinkBounded p)
    (hw0 : -1 ≤ wv) (hw1 : wv ≤ 1) :
    -7.65 ≤ pinkOut p wv ∧ pinkOut p wv ≤ 7.65 := by
  have hq := pinkStep_bounded hp hw0 hw1
  obtain ⟨⟨a0, a1⟩, ⟨b0, b1⟩, ⟨c0, c1⟩, ⟨d0, d1⟩, ⟨e0, e1⟩, ⟨f0, f1⟩, _⟩ := hq
  obtain ⟨_, _, _, _, _, _, g0, g1⟩ := hp
  unfold pinkOut
  constructor <;> simp only [] <;> linarith

lemma pinkGen_mem_bounds (w : ℕ → ℚ) (hw : ∀ i, -1 ≤ w i ∧ w i ≤ 1) :
    ∀ (n : ℕ) (p : PinkState) (i : ℕ), PinkBounded p →
      ∀ x ∈ pinkGen w p i n, -7.65 ≤ x ∧ x ≤ 7.65 := by
  intro n
  induction n with
  | zero => intro p i _ x hx; simp [pinkGen] at hx
  | succ n ih =>
    intro p i hp x hx
    rcases List.mem_cons.mp hx with h | h
    · subst h; exact pinkOut_bounds hp (hw i).1 (hw i).2
    · exact ih (pinkStep p (w i)) (i + 1)
        (pinkStep_bounded hp (hw i).1 (hw i).2) x h

/-! ### Indexed characterisation of the generated samples -/

lemma pinkIter_succ (w : ℕ → ℚ) : ∀ (j : ℕ) (p : PinkState) (i : ℕ),
    pinkIter w p i (j + 1) = pinkStep (pinkIter w p i j) (w (i + j)) := by
  intro j
  induction j with
  | zero => intro p i; simp [pinkIter]
  | succ j ih =>
    intro p i
    show pinkIter w (pinkStep p (w i)) (i + 1) (j + 1) = _
    rw [ih (pinkStep p (w i)) (i + 1)]
    have : i + 1 + j = i + (j + 1) := by omega
    rw [this]
    rfl

lemma pinkIter_eq_pinkState (w : ℕ → ℚ) (n : ℕ) :
    pinkIter w pinkInit 0 n = pinkState w n := by
  induction n with
  | zero => rfl
  | succ n ih =>
    rw [pinkIter_succ, ih]
    simp [pinkState]

lemma pinkGen_getD (w : ℕ → ℚ) : ∀ (n j : ℕ) (p : PinkState) (i : ℕ), j < n →
    (pinkGen w p i n).getD j 0 = pinkOut (pinkIter w p i j) (w (i + j)) := by
  intro n
  induction n with
  | zero => intro j p i hj; omega
  | succ n ih =>
    intro j p i hj
    cases j with
    | zero => simp [pinkGen, pinkIter]
    | succ j =>
      show (pinkGen w (pinkStep p (w i)) (i + 1) n).getD j 0 = _
      rw [ih j (pinkStep p (w i)) (i + 1) (by omega)]
      have : i + 1 + j = i + (j + 1) := by omega
      rw [this]
      rfl

lemma white_getD (w : ℕ → ℚ) (sampleRate j : ℕ) :
    (createNoiseBuffer w NoiseColor.white sampleRate).getD j 0 =
      if j < sampleRate * 5 then w j else 0 := by
  simp only [createNoiseBuffer]
  by_cases hj : j < sampleRate * 5
  · rw [if_pos hj, List.getD_eq_getElem?_getD]
    simp [List.getElem?_map, List.getElem?_range hj]
  · rw [if_neg hj, List.getD_eq_default]
    simpa using Nat.le_of_not_lt hj

/-! ### Hook helper lemmas -/

lemma mem_playStopEffect {a : GraphAction} {h : HookState} {s : AudioState}
    (ha : a ∈ (playStopEffect h s).2) :
    a = GraphAction.detachSource ∨ a = GraphAction.attachSource s.noiseColor ∨
    a = GraphAction.cancelGainRamps ∨ a = GraphAction.setGainValue 0 ∨
    a = GraphAction.rampGainTo s.volume 0.1 ∨
    a = GraphAction.setGainValue h.gainValue ∨
    a = GraphAction.rampGainTo 0 0.1 := by
  by_cases hsup : h.supported = false <;>
    by_cases hsrc : h.source = none <;>
    cases hpl : s.isPlaying <;>
    simp [playStopEffect, hsup, hsrc, hpl] at ha <;>
    tauto

lemma mem_paramEffect {a : GraphAction} {h : HookState} {s : AudioState}
    (ha : a ∈ paramEffect h s) :
    a = GraphAction.setGainTarget s.volume ∨
    a = GraphAction.setFilterFreqTarget s.filterFrequency ∨
    a = GraphAction.setFilterQTarget s.filterQ := by
  by_cases hsup : h.supported = false <;>
    cases hpl : s.isPlaying <;>
    simp [paramEffect, hsup, hpl] at ha <;>
    tauto

lemma mem_applyState {a : GraphAction} {h : HookState} {s : AudioState}
    (ha : a ∈ (applyState h s).2) :
    a ∈ (playStopEffect h s).2 ∨
    a = GraphAction.setGainTarget s.volume ∨
    a = GraphAction.setFilterFreqTarget s.filterFrequency ∨
    a = GraphAction.setFilterQTarget s.filterQ := by
  unfold applyState at ha
  by_cases hc : h.prevDeps1 = some (s.isPlaying, s.noiseColor) <;>
    simp only [hc, if_pos, if_neg, if_true, if_false, ite_true, ite_false,
      List.mem_append] at ha
  · rcases ha with ha | ha
    · simp at ha
    · split at ha
      · simp at ha
      · exact Or.inr (mem_paramEffect ha)
  · rcases ha with ha | ha
    · exact Or.inl ha
    · split at ha
      · simp at ha
      · exact Or.inr (mem_paramEffect ha)

lemma paramEffect_no_detach_attach (h : HookState) (s : AudioState) :
    (paramEffect h s).countP isDetach = 0 ∧ (paramEffect h s).countP isAttach = 0 := by
  constructor <;>
    · rw [List.countP_eq_zero]
      intro a ha
      rcases mem_paramEffect ha with h' | h' | h' <;> subst h' <;> simp [isDetach, isAttach]

lemma applyState_unsupported {h : HookState} (s : AudioState)
    (hsup : h.supported = false) :
    (applyState h s).1.supported = false ∧ (applyState h s).1.source = h.source ∧
    (applyState h s).1.analyser = h.analyser ∧ (applyState h s).2 = [] := by
  unfold applyState playStopEffect paramEffect
  simp [hsup, ite_self]

lemma runStates_unsupported : ∀ (states : List AudioState) (h : HookState),
    h.supported = false →
    (runStates h states).2 = [] ∧ (runStates h states).1.source = h.source ∧
    (runStates h states).1.analyser = h.analyser := by
  intro states
  induction states with
  | nil => intro h hsup; exact ⟨rfl, rfl, rfl⟩
  | cons s rest ih =>
    intro h hsup
    obtain ⟨h1, h2, h3, h4⟩ := applyState_unsupported (h := h) s hsup
    obtain ⟨i1, i2, i3⟩ := ih (applyState h s).1 h1
    refine ⟨?_, ?_, ?_⟩
    · show (applyState h s).2 ++ (runStates (applyState h s).1 rest).2 = []
      rw [h4, i1]
      rfl
    · show (runStates (applyState h s).1 rest).1.source = h.source
      rw [i2, h2]
    · show (runStates (applyState h s).1 rest).1.analyser = h.analyser
      rw [i3, h3]

/-! ## Claim theorems -/

/-- C1 (counterexample): the core does not clamp.  Submitting an
`AudioState` with volume 2 (outside `[0, 1]`), filter frequency 30000
(outside `[20, 20000]`) and filter Q -5 (not positive) on the first render
after init makes exactly these unclamped values reach the gain and filter
stages (`setTargetAtTime` is called with 2, 30000 and -5). -/
theorem claim1_counterexample :
    (GraphAction.setGainTarget 2 ∈ (applyState (initHook true) sBad).2 ∧
      ¬ ((2 : ℚ) ≤ 1)) ∧
    (GraphAction.setFilterQTarget (-5) ∈ (applyState (initHook true) sBad).2 ∧
      ¬ ((0 : ℚ) < -5)) ∧
    (GraphAction.setFilterFreqTarget 30000 ∈ (applyState (initHook true) sBad).2 ∧
      ¬ ((30000 : ℚ) ≤ 20000)) := by
  decide

/-- C1 (amended): the hook applies `AudioState` values to the graph
unchanged — every gain target, filter-frequency target, filter-Q target and
gain ramp emitted by an update carries exactly the corresponding field of
the submitted state (or the hard-coded 0 of the fade endpoints), never a
clamped version of it. -/
theorem claim1_params_pass_through (h : HookState) (s : AudioState) (v : ℚ) :
    (GraphAction.setGainTarget v ∈ (applyState h s).2 → v = s.volume) ∧
    (GraphAction.setFilterFreqTarget v ∈ (applyState h s).2 → v = s.filterFrequency) ∧
    (GraphAction.setFilterQTarget v ∈ (applyState h s).2 → v = s.filterQ) ∧
    (GraphAction.rampGainTo v 0.1 ∈ (applyState h s).2 → v = s.volume ∨ v = 0) := by
  refine ⟨fun hm => ?_, fun hm => ?_, fun hm => ?_, fun hm => ?_⟩ <;>
    · rcases mem_applyState hm with hp | hp | hp | hp
      · rcases mem_playStopEffect hp with h1 | h1 | h1 | h1 | h1 | h1 | h1 <;>
          simp_all
      all_goals simp_all

/-- C1 (witness): at the concrete out-of-range input, the gain target value
2 that reached the graph is exactly the submitted (unclamped) volume. -/
theorem claim1_params_pass_through_witness : (2 : ℚ) = sBad.volume :=
  (claim1_params_pass_through (initHook true) sBad 2).1 (by decide)

/-- C2 (counterexample): switching color from white to pink while playing
at gain 0.5 emits `setValueAtTime(0)` — the gain is set instantaneously to
0 at the splice and the new source ramps up from zero, not from the graph's
current gain level 0.5, contradicting the claim's no-dip-to-zero part. -/
theorem claim2_counterexample :
    (applyState hPlayingWhite sSwitchPink).2 =
      [GraphAction.detachSource, GraphAction.attachSource NoiseColor.pink,
        GraphAction.cancelGainRamps, GraphAction.setGainValue 0,
        GraphAction.rampGainTo (1 / 2) 0.1] ∧
    GraphAction.setGainValue 0 ∈ (applyState hPlayingWhite sSwitchPink).2 := by
  simp +decide [applyState, playStopEffect, paramEffect, hPlayingWhite, sSwitchPink]

/-- C2 (amended): a color change while playing performs exactly one source
detach and one source attach (the new buffer's color becomes the attached
source), but the gain is reset to 0 at the splice and ramps from zero up to
the target volume over the 0.1 s window. -/
theorem claim2_color_change (h : HookState) (s : AudioState) (c : NoiseColor)
    (hsup : h.supported = true) (hsrc : h.source = some c)
    (hprev : h.prevDeps1 = some (true, c)) (hplay : s.isPlaying = true)
    (hcol : s.noiseColor ≠ c) :
    (applyState h s).2.countP isDetach = 1 ∧
    (applyState h s).2.countP isAttach = 1 ∧
    (applyState h s).1.source = some s.noiseColor ∧
    GraphAction.setGainValue 0 ∈ (applyState h s).2 ∧
    GraphAction.rampGainTo s.volume 0.1 ∈ (applyState h s).2 := by
  have hne : ¬ h.prevDeps1 = some (s.isPlaying, s.noiseColor) := by
    rw [hprev, hplay]
    simp only [Option.some.injEq, Prod.mk.injEq, true_and]
    exact fun hx => hcol hx.symm
  have hps : playStopEffect h s =
      ({ h with source := some s.noiseColor, gainValue := 0 },
        [GraphAction.detachSource, GraphAction.attachSource s.noiseColor,
          GraphAction.cancelGainRamps, GraphAction.setGainValue 0,
          GraphAction.rampGainTo s.volume 0.1]) := by
    unfold playStopEffect
    rw [hplay]
    simp [hsup, hsrc]
  have hr : (if h.prevDeps1 = some (s.isPlaying, s.noiseColor)
        then ((h : HookState), ([] : List GraphAction))
        else playStopEffect h s) = playStopEffect h s := if_neg hne
  have hacts : (applyState h s).2 =
      [GraphAction.detachSource, GraphAction.attachSource s.noiseColor,
        GraphAction.cancelGainRamps, GraphAction.setGainValue 0,
        GraphAction.rampGainTo s.volume 0.1] ++
      (if h.prevDeps2 = some (s.volume, s.filterFrequency, s.filterQ, s.isPlaying)
        then []
        else paramEffect { h with source := some s.noiseColor, gainValue := 0 } s) := by
    simp only [applyState, hr]
    simp only [hps]
  have hsrc2 : (applyState h s).1.source = some s.noiseColor := by
    simp only [applyState, hr]
    simp only [hps]
  have hpe := paramEffect_no_detach_attach
    { h with source := some s.noiseColor, gainValue := 0 } s
  have hz1 : (if h.prevDeps2 = some (s.volume, s.filterFrequency, s.filterQ, s.isPlaying)
      then []
      else paramEffect { h with source := some s.noiseColor, gainValue := 0 }
        s).countP isDetach = 0 := by
    split
    · rfl
    · exact hpe.1
  have hz2 : (if h.prevDeps2 = some (s.volume, s.filterFrequency, s.filterQ, s.isPlaying)
      then []
      else paramEffect { h with source := some s.noiseColor, gainValue := 0 }
        s).countP isAttach = 0 := by
    split
    · rfl
    · exact hpe.2
  rw [hacts]
  refine ⟨?_, ?_, hsrc2, ?_, ?_⟩
  · rw [List.countP_append, hz1]
    simp [List.countP_cons, isDetach]
  · rw [List.countP_append, hz2]
    simp [List.countP_cons, isAttach]
  · simp
  · simp

/-- C2 (witness): the amended claim at the concrete white-to-pink switch. -/
theorem claim2_color_change_witness :
    (applyState hPlayingWhite sSwitchPink).2.countP isDetach = 1 ∧
    (applyState hPlayingWhite sSwitchPink).2.countP isAttach = 1 ∧
    (applyState hPlayingWhite sSwitchPink).1.source = some sSwitchPink.noiseColor ∧
    GraphAction.setGainValue 0 ∈ (applyState hPlayingWhite sSwitchPink).2 ∧
    GraphAction.rampGainTo sSwitchPink.volume 0.1 ∈
      (applyState hPlayingWhite sSwitchPink).2 :=
  claim2_color_change hPlayingWhite sSwitchPink NoiseColor.white rfl rfl rfl rfl
    (by decide)

/-- C3: on a stop request while playing pink at gain 0.5, the very first
graph action is the source stop/disconnect, and the ramp of the gain toward
0 is only scheduled afterwards — the source is detached while the fade
toward 0 has not even started, so the fade never shapes audible output.
This contradicts the claim (ramp first, then detach) and the code's own
intent comment ("Ramp down if stopping"). -/
theorem claim3_stop_detaches_before_fade :
    (applyState hPlayingPink sStop).2 =
      [GraphAction.detachSource, GraphAction.cancelGainRamps,
        GraphAction.setGainValue (1 / 2), GraphAction.rampGainTo 0 0.1,
        GraphAction.setFilterFreqTarget 5000, GraphAction.setFilterQTarget 1] ∧
    (applyState hPlayingPink sStop).2.head? = some GraphAction.detachSource := by
  simp +decide [applyState, playStopEffect, paramEffect, hPlayingPink, sStop]

/-- C4 (counterexample): with every pseudo-random draw equal to 0.999
(inside `[-1, 1]`), the brown buffer at sample rate 5 has its sample at
index 24 above 1 — the generated values are NOT all within `[-1, 1]`. -/
theorem claim4_counterexample :
    ((-1 : ℚ) ≤ 999 / 1000 ∧ (999 : ℚ) / 1000 ≤ 1) ∧
    1 < (createNoiseBuffer wConst NoiseColor.brown 5).getD 24 0 := by
  refine ⟨by norm_num, ?_⟩
  norm_num [createNoiseBuffer, brownGen, brownStep, wConst, List.getD]

/-- C4 (amended): for every color and sample rate the buffer has exactly
`5 × sampleRate` samples; white samples always lie in `[-1, 1]`, but brown
samples are only bounded by `[-3.5, 3.5]` (the compensation gain) and pink
samples by `[-7.65, 7.65]` — the `[-1, 1]` range is not guaranteed for the
filtered colors. -/
theorem claim4_buffer_length_bounds (type : NoiseColor) (sampleRate : ℕ)
    (w : ℕ → ℚ) (hw : ∀ i, -1 ≤ w i ∧ w i ≤ 1) :
    (createNoiseBuffer w type sampleRate).length = 5 * sampleRate ∧
    (∀ x ∈ createNoiseBuffer w NoiseColor.white sampleRate, -1 ≤ x ∧ x ≤ 1) ∧
    (∀ x ∈ createNoiseBuffer w NoiseColor.brown sampleRate, -3.5 ≤ x ∧ x ≤ 3.5) ∧
    (∀ x ∈ createNoiseBuffer w NoiseColor.pink sampleRate, -7.65 ≤ x ∧ x ≤ 7.65) := by
  refine ⟨createNoiseBuffer_length w type sampleRate, ?_, ?_, ?_⟩
  · intro x hx
    simp only [createNoiseBuffer, List.mem_map, List.mem_range] at hx
    obtain ⟨i, _, rfl⟩ := hx
    exact hw i
  · intro x hx
    exact brownGen_mem_bounds w hw _ 0 0 (by norm_num) (by norm_num) x
      (by simpa [createNoiseBuffer] using hx)
  · intro x hx
    exact pinkGen_mem_bounds w hw _ pinkInit 0 pinkInit_bounded x
      (by simpa [createNoiseBuffer] using hx)

/-- C4 (witness): the amended claim at all-zero draws and sample rate 1. -/
theorem claim4_buffer_length_bounds_witness :
    (∀ i : ℕ, -1 ≤ (fun _ => (0 : ℚ)) i ∧ (fun _ => (0 : ℚ)) i ≤ 1) ∧
    (createNoiseBuffer (fun _ => (0 : ℚ)) NoiseColor.brown 1).length = 5 * 1 :=
  ⟨fun _ => by norm_num,
    (claim4_buffer_length_bounds NoiseColor.brown 1 (fun _ => 0)
      (fun _ => by norm_num)).1⟩

/-- C5 (counterexample): with first draw 1 and all later draws -1 (all
within `[-1, 1]`), the white buffer at sample rate 1 is `[1, -1, -1, -1, -1]`
and the jump across the loop wrap point is 2 — the full amplitude range, the
largest discontinuity any signal in `[-1, 1]` can have, so it is not below
any audible-click threshold.  The generator applies no crossfade or
seam-matching of any kind. -/
theorem claim5_counterexample :
    (∀ i, -1 ≤ wSeam i ∧ wSeam i ≤ 1) ∧
    |(createNoiseBuffer wSeam NoiseColor.white 1).getD (5 * 1 - 1) 0 -
      (createNoiseBuffer wSeam NoiseColor.white 1).getD 0 0| = 2 := by
  constructor
  · intro i
    unfold wSeam
    split <;> norm_num
  · norm_num [createNoiseBuffer, List.range_succ, wSeam, List.getD]

/-- C5 (amended): no construction bounds the wrap-point delta below the
trivial amplitude bound: for the white buffer the absolute sample delta
across the loop seam is at most 2 (the full range, attained by the
counterexample), and nothing smaller is guaranteed. -/
theorem claim5_seam_bound (w : ℕ → ℚ) (hw : ∀ i, -1 ≤ w i ∧ w i ≤ 1)
    (sampleRate : ℕ) :
    |(createNoiseBuffer w NoiseColor.white sampleRate).getD (5 * sampleRate - 1) 0 -
      (createNoiseBuffer w NoiseColor.white sampleRate).getD 0 0| ≤ 2 := by
  rw [white_getD, white_getD]
  have h1 : ∀ j : ℕ, -1 ≤ (if j < sampleRate * 5 then w j else 0) ∧
      (if j < sampleRate * 5 then w j else 0) ≤ 1 := by
    intro j
    split
    · exact hw j
    · norm_num
  obtain ⟨a0, a1⟩ := h1 (5 * sampleRate - 1)
  obtain ⟨b0, b1⟩ := h1 0
  apply abs_le.mpr
  constructor <;> linarith

/-- C5 (witness): the amended seam bound at all-zero draws, sample rate 1. -/
theorem claim5_seam_bound_witness :
    |(createNoiseBuffer (fun _ => (0 : ℚ)) NoiseColor.white 1).getD (5 * 1 - 1) 0 -
      (createNoiseBuffer (fun _ => (0 : ℚ)) NoiseColor.white 1).getD 0 0| ≤ 2 :=
  claim5_seam_bound (fun _ => 0) (fun _ => by norm_num) 1

/-- C6 (counterexample): the pink output is NOT the compensation gain times
the six pole states plus the direct white component: with draws `1, 0, 0, …`
the code's sample at index 1 differs from that six-pole formula by exactly
`0.11 * 0.115926` — the contribution of the seventh state `b6`, the
one-sample-delayed white draw. -/
theorem claim6_counterexample :
    (createNoiseBuffer wImpulse NoiseColor.pink 1).getD 1 0 ≠
      pinkOutSixPole (pinkState wImpulse 1) (wImpulse 1) ∧
    (createNoiseBuffer wImpulse NoiseColor.pink 1).getD 1 0 -
      pinkOutSixPole (pinkState wImpulse 1) (wImpulse 1) = 0.11 * 0.115926 := by
  norm_num [createNoiseBuffer, pinkGen, pinkOut, pinkOutSixPole, pinkStep,
    pinkState, pinkInit, wImpulse, List.getD]

/-- C6 (amended): every pink buffer sample equals the 0.11 compensation
gain times the sum of the SEVEN state contributions: the six freshly updated
leaky-integrator poles `b0..b5`, the seventh state `b6` (the previous
iteration's white draw scaled by 0.115926), and the direct white component
`white * 0.5362`. -/
theorem claim6_pink_seven_states (w : ℕ → ℚ) (sampleRate j : ℕ)
    (hj : j < sampleRate * 5) :
    (createNoiseBuffer w NoiseColor.pink sampleRate).getD j 0 =
      0.11 * ((pinkStep (pinkState w j) (w j)).b0 + (pinkStep (pinkState w j) (w j)).b1 +
        (pinkStep (pinkState w j) (w j)).b2 + (pinkStep (pinkState w j) (w j)).b3 +
        (pinkStep (pinkState w j) (w j)).b4 + (pinkStep (pinkState w j) (w j)).b5 +
        (pinkState w j).b6 + w j * 0.5362) ∧
    (pinkState w (j + 1)).b6 = w j * 0.115926 := by
  constructor
  · show (pinkGen w pinkInit 0 (sampleRate * 5)).getD j 0 = _
    rw [pinkGen_getD w (sampleRate * 5) j pinkInit 0 hj, pinkIter_eq_pinkState]
    simp [pinkOut, Nat.zero_add]
  · simp [pinkState, pinkStep]

/-- C6 (witness): the amended claim at all-zero draws, sample rate 1,
index 0. -/
theorem claim6_pink_seven_states_witness :
    (0 : ℕ) < 1 * 5 ∧
    ((createNoiseBuffer (fun _ => (0 : ℚ)) NoiseColor.pink 1).getD 0 0 =
      0.11 * ((pinkStep (pinkState (fun _ => (0 : ℚ)) 0) 0).b0 +
        (pinkStep (pinkState (fun _ => (0 : ℚ)) 0) 0).b1 +
        (pinkStep (pinkState (fun _ => (0 : ℚ)) 0) 0).b2 +
        (pinkStep (pinkState (fun _ => (0 : ℚ)) 0) 0).b3 +
        (pinkStep (pinkState (fun _ => (0 : ℚ)) 0) 0).b4 +
        (pinkStep (pinkState (fun _ => (0 : ℚ)) 0) 0).b5 +
        (pinkState (fun _ => (0 : ℚ)) 0).b6 + 0 * 0.5362) ∧
      (pinkState (fun _ => (0 : ℚ)) (0 + 1)).b6 = 0 * 0.115926) :=
  ⟨by norm_num, claim6_pink_seven_states (fun _ => 0) 1 0 (by norm_num)⟩

/-- C7: submitting an `AudioState` identical to the previously submitted
one is a no-op: both effects see unchanged dependency arrays, so no graph
action at all is emitted (in particular no detach/attach and no new ramps)
and the hook state is unchanged. -/
theorem claim7_idempotent (h : HookState) (s : AudioState) :
    applyState (applyState h s).1 s = ((applyState h s).1, []) := by
  unfold applyState
  simp

/-- C8: when no `AudioContext` constructor exists at initialization, every
sequence of submitted `AudioState`s (including any number of play requests)
produces no graph action at all, no source is ever attached (so `PLAYING`
is unreachable), and the spectrum accessor yields the empty frame whatever
the analyser would have carried.  `runStates` is a total function, so no
error propagates to the host. -/
theorem claim8_unsupported_env (states : List AudioState) :
    (runStates (initHook false) states).2 = [] ∧
    (runStates (initHook false) states).1.source = none ∧
    ∀ frame, pullSpectrum (runStates (initHook false) states).1 frame = [] := by
  obtain ⟨h1, h2, h3⟩ := runStates_unsupported states (initHook false) rfl
  refine ⟨h1, ?_, ?_⟩
  · rw [h2]
    rfl
  · intro frame
    have hnone : (runStates (initHook false) states).1.analyser = none := by
      rw [h3]
      rfl
    simp [pullSpectrum, hnone]

/-- C9: with every white draw in `[-1, 1]`, the brown integrator state
`lastOut` starts at 0 and stays within `[-1, 1]` after every iteration, so
every stored brown buffer sample (the state times the compensation gain
3.5) has magnitude at most 3.5. -/
theorem claim9_brown_state_bounded (w : ℕ → ℚ) (hw : ∀ i, -1 ≤ w i ∧ w i ≤ 1) :
    brownLast w 0 = 0 ∧ (∀ n, |brownLast w n| ≤ 1) ∧
    ∀ sampleRate : ℕ, ∀ x ∈ createNoiseBuffer w NoiseColor.brown sampleRate,
      |x| ≤ 3.5 := by
  refine ⟨rfl, fun n => abs_le.mpr (brownLast_bounds w hw n), fun sr x hx => ?_⟩
  exact abs_le.mpr (brownGen_mem_bounds w hw _ 0 0 (by norm_num) (by norm_num) x
    (by simpa [createNoiseBuffer] using hx))

/-- C9 (witness): the state bound at all-zero draws after 3 iterations. -/
theorem claim9_brown_state_bounded_witness :
    |brownLast (fun _ => (0 : ℚ)) 3| ≤ 1 :=
  (claim9_brown_state_bounded (fun _ => 0) (fun _ => by norm_num)).2.1 3

/-- C10: an update that leaves `isPlaying` and `noiseColor` unchanged (only
volume / filter frequency / filter Q may differ) never detaches or attaches
a source — the source ref is unchanged — and every action it emits is a
target re-schedule on the existing gain or filter stage. -/
theorem claim10_param_only (h : HookState) (s : AudioState)
    (hdeps : h.prevDeps1 = some (s.isPlaying, s.noiseColor)) :
    (applyState h s).1.source = h.source ∧
    (applyState h s).2.countP isDetach = 0 ∧
    (applyState h s).2.countP isAttach = 0 ∧
    ∀ a ∈ (applyState h s).2,
      a = GraphAction.setGainTarget s.volume ∨
      a = GraphAction.setFilterFreqTarget s.filterFrequency ∨
      a = GraphAction.setFilterQTarget s.filterQ := by
  have hr : (if h.prevDeps1 = some (s.isPlaying, s.noiseColor)
        then ((h : HookState), ([] : List GraphAction))
        else playStopEffect h s) = (h, []) := if_pos hdeps
  simp only [applyState, hr]
  simp only [List.nil_append]
  have hpe := paramEffect_no_detach_attach h s
  refine ⟨by trivial, ?_, ?_, ?_⟩
  · split
    · rfl
    · exact hpe.1
  · split
    · rfl
    · exact hpe.2
  · intro a ha
    split at ha
    · simp at ha
    · exact mem_paramEffect ha

/-- C10 (witness): a pure volume change on the playing-pink state keeps the
source unchanged. -/
theorem claim10_param_only_witness :
    (applyState hPlayingPink sVol).1.source = hPlayingPink.source :=
  (claim10_param_only hPlayingPink sVol (by decide)).1

end NoiseMaker
